import Mathlib

/-!
Verification of the PyDocCoverage analysis-and-reporting pipeline
(`pydoccoverage.py`) via a shallow embedding in Lean 4.

Modelling conventions:
* Python dictionaries used as configuration mappings are embedded as
  functions `String → Option ConfigValue` (a Python `dict` is a finite map;
  `key in d` is `(d key).isSome`, `d[key] = v` is a pointwise update).
* The Python `ast` module is embedded as the inductive `PyNode`; `ast.walk`
  is the breadth-first traversal `walk` (CPython implements `ast.walk` with
  a FIFO deque).  `ast.get_docstring` is `get_docstring`: the docstring is
  the first body statement when it is a string-literal expression.
* Python `float` division of nonnegative integers is embedded as exact
  division in `ℚ`; a division whose denominator is zero raises
  `ZeroDivisionError` in Python and is embedded as `Except.error ()`
  (`pyDiv`).  Divisions the source guards with `max(total, 1)` can never
  raise and are embedded as plain `ℚ` division.
* `print` output is embedded structurally: the renderer returns the data
  interpolated into each printed line (violation kind, line number, name,
  documented/total/percentage) rather than formatted text, since decimal
  float formatting is not part of any claim.
* `ast.parse` failure (`SyntaxError`) is embedded by giving `run` the parse
  outcome of each discovered file as an `Except Unit PyNode`.
-/

namespace PyDocCoverage

/-! ## Configuration (source lines 4-35, 204-209) -/

/-- A JSON-ish value stored in a configuration dictionary: the defaults use
only booleans and lists of strings. -/
inductive ConfigValue where
  | bool (b : Bool)
  | strList (l : List String)
deriving DecidableEq, Repr, Inhabited

/-- A Python `dict` keyed by strings, as a finite-map-style function. -/
def ConfigDict : Type := String → Option ConfigValue

/-- `d[k] = v` on a Python dict: pointwise update. -/
def dictInsert (d : ConfigDict) (k : String) (v : ConfigValue) : ConfigDict :=
  fun j => if j = k then some v else d j

def CONFIG_EXCLUDE_FOLDERS : String := "exclude_folders"
def CONFIG_EXCLUDE_FILES : String := "exclude_files"
def CONFIG_SKIP_MAGIC : String := "skip_magic_funcs"
def CONFIG_SKIP_PRIVATE : String := "skip_private_funcs"
def CONFIG_REPORT_PERCENT_ONLY : String := "report_percent_only"
def CONFIG_SKIP_MODULES : String := "skip_modules"
def CONFIG_SKIP_CLASSES : String := "skip_classes"
def CONFIG_SKIP_FUNCTIONS : String := "skip_functions"

def CONFIG_FIELDS : List String := [
  CONFIG_EXCLUDE_FOLDERS,
  CONFIG_EXCLUDE_FILES,
  CONFIG_SKIP_MAGIC,
  CONFIG_SKIP_PRIVATE,
  CONFIG_REPORT_PERCENT_ONLY,
  CONFIG_SKIP_MODULES,
  CONFIG_SKIP_CLASSES,
  CONFIG_SKIP_FUNCTIONS
]

/-- The module-level `CONFIG_DEFAULT` dictionary (source lines 24-35). -/
def CONFIG_DEFAULT : ConfigDict := fun k =>
  if k = CONFIG_EXCLUDE_FOLDERS then some (.strList ["venv"])
  else if k = CONFIG_EXCLUDE_FILES then some (.strList [])
  else if k = CONFIG_SKIP_MAGIC then some (.bool true)
  else if k = CONFIG_SKIP_PRIVATE then some (.bool true)
  else if k = CONFIG_REPORT_PERCENT_ONLY then some (.bool false)
  else if k = CONFIG_SKIP_MODULES then some (.bool false)
  else if k = CONFIG_SKIP_CLASSES then some (.bool false)
  else if k = CONFIG_SKIP_FUNCTIONS then some (.bool false)
  else none

/-- One iteration of the loop in `_overwrite_config`:
`if field in new: base[field] = new[field]`. -/
def applyField (new : ConfigDict) (base : ConfigDict) (field : String) : ConfigDict :=
  match new field with
  | some v => dictInsert base field v
  | none => base

/-- `_overwrite_config(base, new)` (source lines 204-209).  The Python
function assigns into `base` in place and then returns `base` itself; the
value returned here is therefore also the post-call content of the caller's
`base` object. -/
def overwrite_config (base new : ConfigDict) : ConfigDict :=
  CONFIG_FIELDS.foldl (applyField new) base

/-- The content of the module-level `CONFIG_DEFAULT` object after `run` has
loaded an override `ov`: `run` executes `config = CONFIG_DEFAULT` (an alias,
not a copy) and then `_overwrite_config(config, ov)`, whose
`base[field] = new[field]` statements write through that alias into the
shared default dictionary. -/
def default_cell_after_run (ov : ConfigDict) : ConfigDict :=
  overwrite_config CONFIG_DEFAULT ov

/-- The resolved configuration as consumed by analysis and reporting: every
run-time read `config[...]` uses one of the eight recognized keys, and both
the default dictionary and any merge result bind all eight. -/
structure Config where
  exclude_folders : List String
  exclude_files : List String
  skip_magic_funcs : Bool
  skip_private_funcs : Bool
  report_percent_only : Bool
  skip_modules : Bool
  skip_classes : Bool
  skip_functions : Bool
deriving DecidableEq, Repr, Inhabited

/-- The resolved form of `CONFIG_DEFAULT`. -/
def default_config : Config :=
  { exclude_folders := ["venv"]
    exclude_files := []
    skip_magic_funcs := true
    skip_private_funcs := true
    report_percent_only := false
    skip_modules := false
    skip_classes := false
    skip_functions := false }

/-! ## Python syntax trees (the `ast` collaborators used by the source) -/

/-- A Python AST node, restricted to the shape the analyzer observes:
`Module`, `ClassDef`, `FunctionDef`, `AsyncFunctionDef`, a string-literal
expression statement (what `ast.get_docstring` looks for), and any other
node with its child list. -/
inductive PyNode where
  | module (body : List PyNode)
  | classDef (name : String) (lineno : Nat) (body : List PyNode)
  | funcDef (name : String) (lineno : Nat) (body : List PyNode)
  | asyncFuncDef (name : String) (lineno : Nat) (body : List PyNode)
  | exprStr (s : String) (lineno : Nat)
  | stmt (children : List PyNode)

namespace PyNode

/-- `ast.iter_child_nodes`, restricted to the modelled shape. -/
def childNodes : PyNode → List PyNode
  | .module body => body
  | .classDef _ _ body => body
  | .funcDef _ _ body => body
  | .asyncFuncDef _ _ body => body
  | .exprStr _ _ => []
  | .stmt children => children

mutual

def nodeSize : PyNode → Nat
  | .module body => 1 + bodySize body
  | .classDef _ _ body => 1 + bodySize body
  | .funcDef _ _ body => 1 + bodySize body
  | .asyncFuncDef _ _ body => 1 + bodySize body
  | .exprStr _ _ => 1
  | .stmt children => 1 + bodySize children

def bodySize : List PyNode → Nat
  | [] => 0
  | n :: rest => nodeSize n + bodySize rest

end

theorem nodeSize_eq (n : PyNode) : nodeSize n = 1 + bodySize n.childNodes := by
  cases n <;> rfl

theorem bodySize_append (l₁ l₂ : List PyNode) :
    bodySize (l₁ ++ l₂) = bodySize l₁ + bodySize l₂ := by
  induction l₁ with
  | nil => simp [bodySize]
  | cons n rest ih => simp [bodySize, ih]; omega

end PyNode

/-- The docstring of a statement list: the first statement when it is a
string-literal expression (`ast.get_docstring`'s rule). -/
def firstStmtString : List PyNode → Option String
  | .exprStr s _ :: _ => some s
  | _ => none

/-- `ast.get_docstring(node)`: first body statement when it is a string
literal, else `None`.  (The source only tests the result against `None`, so
CPython's whitespace cleaning of the text is irrelevant here.) -/
def get_docstring (n : PyNode) : Option String :=
  firstStmtString n.childNodes

/-- The loop body of `ast.walk`: pop the queue front, push its children at
the back, yield the popped node. -/
def walkAux : List PyNode → List PyNode
  | [] => []
  | n :: rest => n :: walkAux (rest ++ n.childNodes)
termination_by l => PyNode.bodySize l
decreasing_by
  simp [PyNode.bodySize, PyNode.bodySize_append]
  have h := PyNode.nodeSize_eq n
  omega

/-- `ast.walk(node)`: breadth-first enumeration of the node and all its
descendants. -/
def walk (n : PyNode) : List PyNode := walkAux [n]

/-- `d` lies in the subtree rooted at the first argument (reflexively). -/
inductive Descendant : PyNode → PyNode → Prop where
  | refl (n : PyNode) : Descendant n n
  | child {n c d : PyNode} : c ∈ n.childNodes → Descendant c d → Descendant n d

theorem mem_walkAux_iff (l : List PyNode) (d : PyNode) :
    d ∈ walkAux l ↔ ∃ n ∈ l, Descendant n d := by
  induction l using walkAux.induct with
  | case1 => simp [walkAux]
  | case2 n rest ih =>
    rw [walkAux]
    simp only [List.mem_cons, ih, List.mem_append]
    constructor
    · rintro (rfl | ⟨m, hm | hm, hmd⟩)
      · exact ⟨d, Or.inl rfl, Descendant.refl d⟩
      · exact ⟨m, Or.inr hm, hmd⟩
      · exact ⟨n, Or.inl rfl, Descendant.child hm hmd⟩
    · rintro ⟨m, rfl | hm, hmd⟩
      · cases hmd with
        | refl => exact Or.inl rfl
        | child hc hcd => exact Or.inr ⟨_, Or.inr hc, hcd⟩
      · exact Or.inr ⟨m, Or.inl hm, hmd⟩

/-- `ast.walk` visits exactly the descendants (including the root). -/
theorem mem_walk_iff (t d : PyNode) : d ∈ walk t ↔ Descendant t d := by
  simp [walk, mem_walkAux_iff]

/-! ## Per-file analysis (source lines 50-128) -/

/-- `count_matching(iterable, *predicates)` (source lines 50-62): the Python
tuple is modelled as a `List Nat`; the accumulator starts at `[0]*len` and
each element bumps the counter of every predicate it satisfies. -/
def count_matching {α : Type} (iterable : List α) (predicates : List (α → Bool)) : List Nat :=
  iterable.foldl
    (fun v e => (predicates.zip v).map fun pv => if pv.1 e then pv.2 + 1 else pv.2)
    (predicates.map fun _ => 0)

/-- One entry of the `classes` / `functions` lists built by `_analyze_file`:
`{"name": ..., "line": ..., "docstring": ...}`. -/
structure Declaration where
  name : String
  line : Nat
  docstring : Option String
deriving DecidableEq, Repr, Inhabited

/-- One of the `class_coverage` / `function_coverage` dictionaries. -/
structure CoverageStat where
  documented : Nat
  total : Nat
  percentage : ℚ
deriving DecidableEq, Repr, Inhabited

/-- The dictionary `_analyze_file` returns. -/
structure FileData where
  module_docstring : Option String
  class_coverage : CoverageStat
  function_coverage : CoverageStat
  classes : List Declaration
  functions : List Declaration
deriving DecidableEq, Repr, Inhabited

/-- The `isinstance(node, ast.ClassDef)` branch of the walk loop (source
lines 93-98): every class node yields an entry, with no condition on the
configuration or the name. -/
def classEntry : PyNode → Option Declaration
  | .classDef name line body => some ⟨name, line, firstStmtString body⟩
  | _ => none

/-- Python `s.startswith(p)`: `p` is a prefix of `s`'s character
sequence. -/
def pyStartswith (s p : String) : Bool := p.data.isPrefixOf s.data

/-- Python `s.endswith(p)`: `p` is a suffix of `s`'s character sequence. -/
def pyEndswith (s p : String) : Bool := p.data.isSuffixOf s.data

/-- The filter applied to a function-like node's fields (source lines
100-108): skip dunder names when `skip_magic_funcs`, then skip names
starting with an underscore when `skip_private_funcs`. -/
def funcFilter (config : Config) (name : String) (line : Nat)
    (body : List PyNode) : Option Declaration :=
  if config.skip_magic_funcs && (pyStartswith name "__" && pyEndswith name "__") then none
  else if config.skip_private_funcs && pyStartswith name "_" then none
  else some ⟨name, line, firstStmtString body⟩

/-- The `isinstance(node, ast.FunctionDef) or isinstance(node,
ast.AsyncFunctionDef)` branch of the walk loop (source lines 99-108). -/
def funcEntry (config : Config) : PyNode → Option Declaration
  | .funcDef name line body => funcFilter config name line body
  | .asyncFuncDef name line body => funcFilter config name line body
  | _ => none

/-- `_analyze_file` (source lines 65-128), from the parsed tree onwards (the
file read and `ast.parse` are handled in `run`).  The single `ast.walk` loop
appends class nodes to `classes` and surviving function nodes to
`functions`; the two branches hit disjoint constructors, so the loop equals
two `filterMap`s over the same walk. -/
def analyze_file (tree : PyNode) (config : Config) : FileData :=
  let nodes := walk tree
  let file_classes := nodes.filterMap classEntry
  let file_functions := nodes.filterMap (funcEntry config)
  let documented_classes :=
    (count_matching file_classes [fun a => a.docstring.isSome]).headD 0
  let total_classes := file_classes.length
  let documented_functions :=
    (count_matching file_functions [fun a => a.docstring.isSome]).headD 0
  let total_functions := file_functions.length
  { module_docstring := get_docstring tree
    class_coverage :=
      { documented := documented_classes
        total := total_classes
        percentage := (documented_classes : ℚ) / ((max total_classes 1 : ℕ) : ℚ) }
    function_coverage :=
      { documented := documented_functions
        total := total_functions
        percentage := (documented_functions : ℚ) / ((max total_functions 1 : ℕ) : ℚ) }
    classes := file_classes
    functions := file_functions }

/-! ## Report rendering (source lines 131-201) and the driver (212-227) -/

/-- One violation line appended to `file_reports` in `_report_all`, carrying
the data interpolated into the printed message. -/
inductive Violation where
  | missingModule
  | missingClass (line : Nat) (name : String)
  | missingFunction (line : Nat) (name : String)
deriving DecidableEq, Repr, Inhabited

/-- The `file_reports` list built for one file in `_report_all` (source
lines 146-165): a module violation when `skip_modules` is false and the
module docstring is `None`, then one violation per undocumented class when
`skip_classes` is false, then one per undocumented function when
`skip_functions` is false, in source order. -/
def file_violations (config : Config) (fd : FileData) : List Violation :=
  (if config.skip_modules = false && fd.module_docstring.isNone
    then [Violation.missingModule] else [])
  ++ (if config.skip_classes = false
      then fd.classes.filterMap fun c =>
        if c.docstring.isNone then some (.missingClass c.line c.name) else none
      else [])
  ++ (if config.skip_functions = false
      then fd.functions.filterMap fun f =>
        if f.docstring.isNone then some (.missingFunction f.line f.name) else none
      else [])

/-- The per-file block printed by `_report_all` when `file_reports` is
non-empty (source lines 166-180): the path, the two coverage lines (built
from the file's own `class_coverage` / `function_coverage` stats), and the
violation lines. -/
structure FileSection where
  file_name : String
  class_cov : CoverageStat
  function_cov : CoverageStat
  reports : List Violation
deriving DecidableEq, Repr, Inhabited

/-- `if file_reports:` — a file prints a section only when it has at least
one violation under the active toggles. -/
def file_section (config : Config) (file_name : String) (fd : FileData) :
    Option FileSection :=
  match file_violations config fd with
  | [] => none
  | reports => some ⟨file_name, fd.class_coverage, fd.function_coverage, reports⟩

/-- The four running-total counters of `_report_all` (source lines
139-142). -/
structure Totals where
  classes_doc_total : Nat
  functions_doc_total : Nat
  classes_total : Nat
  functions_total : Nat
deriving DecidableEq, Repr, Inhabited

/-- The accumulation of the running totals over the files (source lines
150-165): a file's classes contribute only when `skip_classes` is false,
its functions only when `skip_functions` is false. -/
def totals_of (config : Config) (data : List (String × FileData)) : Totals :=
  data.foldl
    (fun acc x =>
      { classes_total := acc.classes_total +
          (if config.skip_classes = false then x.2.classes.length else 0)
        classes_doc_total := acc.classes_doc_total +
          (if config.skip_classes = false
            then x.2.classes.countP (fun c => c.docstring.isSome) else 0)
        functions_total := acc.functions_total +
          (if config.skip_functions = false then x.2.functions.length else 0)
        functions_doc_total := acc.functions_doc_total +
          (if config.skip_functions = false
            then x.2.functions.countP (fun f => f.docstring.isSome) else 0) })
    ⟨0, 0, 0, 0⟩

/-- Python integer-to-float division `a / b`: raises `ZeroDivisionError`
when `b` is zero. -/
def pyDiv (a b : Nat) : Except Unit ℚ :=
  if b = 0 then .error () else .ok ((a : ℚ) / (b : ℚ))

/-- One of the two `Total Coverage` lines (source lines 185-186), carrying
the interpolated counts and the percentage `(doc / total) * 100`. -/
structure TotalLine where
  documented : Nat
  total : Nat
  percentage : ℚ
deriving DecidableEq, Repr, Inhabited

/-- The tail of `_report_all` (source lines 182-186): `total_class_perc =
(classes_doc_total / classes_total) * 100` and its function analogue, with
no `max(total, 1)` guard — a zero total raises `ZeroDivisionError`. -/
def total_lines (t : Totals) : Except Unit (TotalLine × TotalLine) := do
  let total_class_perc ← pyDiv t.classes_doc_total t.classes_total
  let total_functions_perc ← pyDiv t.functions_doc_total t.functions_total
  pure (⟨t.classes_doc_total, t.classes_total, total_class_perc * 100⟩,
        ⟨t.functions_doc_total, t.functions_total, total_functions_perc * 100⟩)

/-- `_report_all` (source lines 138-186): the per-file sections in file
order, and the final total lines (an `Except` because the percentage
division is unguarded). -/
def report_all (data : List (String × FileData)) (config : Config) :
    List FileSection × Except Unit (TotalLine × TotalLine) :=
  (data.filterMap fun x => file_section config x.1 x.2,
    total_lines (totals_of config data))

/-- The single line `_report_percent_only` prints for one file (source
lines 190-200), carrying the interpolated values. -/
structure PercentLine where
  file_name : String
  class_doc : Nat
  class_total : Nat
  class_perc : ℚ
  func_doc : Nat
  func_total : Nat
  func_perc : ℚ
deriving DecidableEq, Repr, Inhabited

/-- `_report_percent_only` (source lines 189-201): one line per file,
unconditionally, from the file's own coverage stats.  The `config` argument
is accepted and unused, as in the source. -/
def report_percent_only (data : List (String × FileData)) (_config : Config) :
    List PercentLine :=
  data.map fun x =>
    { file_name := x.1
      class_doc := x.2.class_coverage.documented
      class_total := x.2.class_coverage.total
      class_perc := x.2.class_coverage.percentage * 100
      func_doc := x.2.function_coverage.documented
      func_total := x.2.function_coverage.total
      func_perc := x.2.function_coverage.percentage * 100 }

/-- Everything `_report_data` prints, structurally. -/
inductive ReportOutput where
  | detailed (sections : List FileSection)
      (totals : Except Unit (TotalLine × TotalLine))
  | percentOnly (lines : List PercentLine)
deriving Repr

/-- `_report_data` (source lines 131-135): mode dispatch on
`report_percent_only`. -/
def report_data (data : List (String × FileData)) (config : Config) :
    ReportOutput :=
  if config.report_percent_only then
    .percentOnly (report_percent_only data config)
  else
    let r := report_all data config
    .detailed r.1 r.2

/-- The analysis-and-reporting portion of `run` (source lines 223-227),
after config resolution and file discovery: each discovered file comes with
the outcome of reading and `ast.parse`-ing it (`Except.error ()` embeds a
`SyntaxError`).  The loop fills `file_data` file by file; an exception
aborts the loop, and since all printing happens in `_report_data` after the
loop, an aborted run emits no output at all. -/
def run (files : List (String × Except Unit PyNode)) (config : Config) :
    Except Unit ReportOutput := do
  let file_data ← files.mapM fun x => do
    let tree ← x.2
    pure (x.1, analyze_file tree config)
  pure (report_data file_data config)

/-! ## Supporting lemmas -/

theorem walkAux_nil : walkAux [] = [] := by
  rw [walkAux]

theorem walkAux_cons (n : PyNode) (rest : List PyNode) :
    walkAux (n :: rest) = n :: walkAux (rest ++ n.childNodes) := by
  rw [walkAux]

theorem zip_self_map {α β : Type} (ps : List α) (f : α → β) :
    ps.zip (ps.map f) = ps.map fun p => (p, f p) := by
  induction ps with
  | nil => simp
  | cons p rest ih => simp [ih]

theorem count_matching_foldl {α : Type} (l : List α) (ps : List (α → Bool))
    (f : (α → Bool) → ℕ) :
    l.foldl
        (fun v e => (ps.zip v).map fun pv => if pv.1 e then pv.2 + 1 else pv.2)
        (ps.map f)
      = ps.map fun p => f p + l.countP p := by
  induction l generalizing f with
  | nil => simp
  | cons e rest ih =>
    rw [List.foldl_cons, zip_self_map, List.map_map]
    have hcomp :
        ((fun pv : (α → Bool) × ℕ => if pv.1 e then pv.2 + 1 else pv.2) ∘
          fun p => (p, f p)) = fun p => if p e then f p + 1 else f p := rfl
    rw [hcomp, ih fun p => if p e then f p + 1 else f p]
    apply List.map_congr_left
    intro p _
    by_cases hp : p e <;> (simp [hp, List.countP_cons]; try omega)

theorem count_matching_eq_map {α : Type} (l : List α) (ps : List (α → Bool)) :
    count_matching l ps = ps.map fun p => l.countP p := by
  unfold count_matching
  rw [count_matching_foldl l ps fun _ => 0]
  simp

/-- The coverage dictionary `_analyze_file` builds from one declaration
list, with the counts written directly. -/
def mkStat (l : List Declaration) : CoverageStat :=
  { documented := l.countP fun a => a.docstring.isSome
    total := l.length
    percentage := ((l.countP fun a => a.docstring.isSome : ℕ) : ℚ) /
      ((max l.length 1 : ℕ) : ℚ) }

theorem analyze_file_eq (tree : PyNode) (config : Config) :
    analyze_file tree config =
      { module_docstring := get_docstring tree
        class_coverage := mkStat ((walk tree).filterMap classEntry)
        function_coverage := mkStat ((walk tree).filterMap (funcEntry config))
        classes := (walk tree).filterMap classEntry
        functions := (walk tree).filterMap (funcEntry config) } := by
  unfold analyze_file mkStat
  have hcm : ∀ l : List Declaration,
      (count_matching l [fun a => a.docstring.isSome]).headD 0
        = l.countP fun a => a.docstring.isSome := by
    intro l
    rw [count_matching_eq_map]
    simp
  simp only [hcm]

/-- The invariant actually maintained by the per-file coverage arithmetic:
the `total = 0` boundary yields percentage `0`, not `1`. -/
def statInv (s : CoverageStat) : Prop :=
  s.documented ≤ s.total ∧ 0 ≤ s.percentage ∧ s.percentage ≤ 1
    ∧ (0 < s.total → s.percentage = (s.documented : ℚ) / (s.total : ℚ))
    ∧ (s.total = 0 → s.percentage = 0)

theorem mkStat_inv (l : List Declaration) : statInv (mkStat l) := by
  unfold statInv mkStat
  dsimp only
  refine ⟨List.countP_le_length _, ?_, ?_, ?_, ?_⟩
  · exact div_nonneg (Nat.cast_nonneg _) (Nat.cast_nonneg _)
  · apply div_le_one_of_le₀
    · exact_mod_cast le_trans (List.countP_le_length _) (le_max_left _ _)
    · exact Nat.cast_nonneg _
  · intro h
    have hm : max l.length 1 = l.length := by omega
    rw [hm]
  · intro h
    have hc : (l.countP fun a => a.docstring.isSome) = 0 :=
      Nat.le_zero.mp (h ▸ List.countP_le_length _)
    rw [hc]
    simp

theorem applyField_ne (new d : ConfigDict) (field k : String) (h : k ≠ field) :
    applyField new d field k = d k := by
  unfold applyField dictInsert
  cases new field <;> simp [h]

theorem applyField_self (new d : ConfigDict) (field : String) :
    applyField new d field field =
      match new field with
      | some v => some v
      | none => d field := by
  unfold applyField dictInsert
  cases new field <;> simp

theorem foldl_applyField_not_mem (fields : List String) (new : ConfigDict)
    (d : ConfigDict) (k : String) (h : k ∉ fields) :
    (fields.foldl (applyField new) d) k = d k := by
  induction fields generalizing d with
  | nil => rfl
  | cons f rest ih =>
    rw [List.foldl_cons, ih _ fun hm => h (List.mem_cons_of_mem _ hm)]
    exact applyField_ne new d f k fun he => h (he ▸ List.mem_cons_self _ _)

theorem foldl_applyField_mem (fields : List String) (new : ConfigDict)
    (d : ConfigDict) (k : String) (hnd : fields.Nodup) (h : k ∈ fields) :
    (fields.foldl (applyField new) d) k =
      match new k with
      | some v => some v
      | none => d k := by
  induction fields generalizing d with
  | nil => cases h
  | cons f rest ih =>
    rw [List.foldl_cons]
    rcases List.mem_cons.mp h with rfl | hm
    · rw [foldl_applyField_not_mem rest new _ k (List.nodup_cons.mp hnd).1]
      exact applyField_self new d k
    · rw [ih _ (List.nodup_cons.mp hnd).2 hm]
      have hne : k ≠ f := by
        rintro rfl
        exact (List.nodup_cons.mp hnd).1 hm
      rw [applyField_ne new d f k hne]

theorem foldl_applyField_congr (fields : List String) (new₁ new₂ : ConfigDict)
    (d : ConfigDict) (h : ∀ f ∈ fields, new₁ f = new₂ f) :
    fields.foldl (applyField new₁) d = fields.foldl (applyField new₂) d := by
  induction fields generalizing d with
  | nil => rfl
  | cons f rest ih =>
    rw [List.foldl_cons, List.foldl_cons]
    have hf : applyField new₁ d f = applyField new₂ d f := by
      unfold applyField
      rw [h f (List.mem_cons_self _ _)]
    rw [hf]
    exact ih _ fun g hg => h g (List.mem_cons_of_mem _ hg)

theorem file_section_eq_some (config : Config) (fn : String) (fd : FileData)
    (s : FileSection) (h : file_section config fn fd = some s) :
    s = ⟨fn, fd.class_coverage, fd.function_coverage, file_violations config fd⟩
      ∧ file_violations config fd ≠ [] := by
  unfold file_section at h
  rcases hv : file_violations config fd with _ | ⟨v, rest⟩ <;> rw [hv] at h
  · cases h
  · injection h with h
    exact ⟨h.symm, by simp⟩

theorem totals_foldl_skip_classes (config : Config) (h : config.skip_classes = true)
    (data : List (String × FileData)) (acc : Totals) :
    (data.foldl
        (fun acc x =>
          { classes_total := acc.classes_total +
              (if config.skip_classes = false then x.2.classes.length else 0)
            classes_doc_total := acc.classes_doc_total +
              (if config.skip_classes = false
                then x.2.classes.countP (fun c => c.docstring.isSome) else 0)
            functions_total := acc.functions_total +
              (if config.skip_functions = false then x.2.functions.length else 0)
            functions_doc_total := acc.functions_doc_total +
              (if config.skip_functions = false
                then x.2.functions.countP (fun f => f.docstring.isSome) else 0) })
        acc).classes_total = acc.classes_total
    ∧ (data.foldl
        (fun acc x =>
          { classes_total := acc.classes_total +
              (if config.skip_classes = false then x.2.classes.length else 0)
            classes_doc_total := acc.classes_doc_total +
              (if config.skip_classes = false
                then x.2.classes.countP (fun c => c.docstring.isSome) else 0)
            functions_total := acc.functions_total +
              (if config.skip_functions = false then x.2.functions.length else 0)
            functions_doc_total := acc.functions_doc_total +
              (if config.skip_functions = false
                then x.2.functions.countP (fun f => f.docstring.isSome) else 0) })
        acc).classes_doc_total = acc.classes_doc_total := by
  induction data generalizing acc with
  | nil => exact ⟨rfl, rfl⟩
  | cons x rest ih =>
    rw [List.foldl_cons]
    have hstep := ih
      { classes_total := acc.classes_total +
          (if config.skip_classes = false then x.2.classes.length else 0)
        classes_doc_total := acc.classes_doc_total +
          (if config.skip_classes = false
            then x.2.classes.countP (fun c => c.docstring.isSome) else 0)
        functions_total := acc.functions_total +
          (if config.skip_functions = false then x.2.functions.length else 0)
        functions_doc_total := acc.functions_doc_total +
          (if config.skip_functions = false
            then x.2.functions.countP (fun f => f.docstring.isSome) else 0) }
    rw [hstep.1, hstep.2]
    simp [h]

theorem totals_foldl_skip_functions (config : Config)
    (h : config.skip_functions = true)
    (data : List (String × FileData)) (acc : Totals) :
    (data.foldl
        (fun acc x =>
          { classes_total := acc.classes_total +
              (if config.skip_classes = false then x.2.classes.length else 0)
            classes_doc_total := acc.classes_doc_total +
              (if config.skip_classes = false
                then x.2.classes.countP (fun c => c.docstring.isSome) else 0)
            functions_total := acc.functions_total +
              (if config.skip_functions = false then x.2.functions.length else 0)
            functions_doc_total := acc.functions_doc_total +
              (if config.skip_functions = false
                then x.2.functions.countP (fun f => f.docstring.isSome) else 0) })
        acc).functions_total = acc.functions_total
    ∧ (data.foldl
        (fun acc x =>
          { classes_total := acc.classes_total +
              (if config.skip_classes = false then x.2.classes.length else 0)
            classes_doc_total := acc.classes_doc_total +
              (if config.skip_classes = false
                then x.2.classes.countP (fun c => c.docstring.isSome) else 0)
            functions_total := acc.functions_total +
              (if config.skip_functions = false then x.2.functions.length else 0)
            functions_doc_total := acc.functions_doc_total +
              (if config.skip_functions = false
                then x.2.functions.countP (fun f => f.docstring.isSome) else 0) })
        acc).functions_doc_total = acc.functions_doc_total := by
  induction data generalizing acc with
  | nil => exact ⟨rfl, rfl⟩
  | cons x rest ih =>
    rw [List.foldl_cons]
    have hstep := ih
      { classes_total := acc.classes_total +
          (if config.skip_classes = false then x.2.classes.length else 0)
        classes_doc_total := acc.classes_doc_total +
          (if config.skip_classes = false
            then x.2.classes.countP (fun c => c.docstring.isSome) else 0)
        functions_total := acc.functions_total +
          (if config.skip_functions = false then x.2.functions.length else 0)
        functions_doc_total := acc.functions_doc_total +
          (if config.skip_functions = false
            then x.2.functions.countP (fun f => f.docstring.isSome) else 0) }
    rw [hstep.1, hstep.2]
    simp [h]

theorem mapM_analyze_error (config : Config)
    (files : List (String × Except Unit PyNode))
    (h : ∃ x ∈ files, x.2 = Except.error ()) :
    (files.mapM fun x => do
        let tree ← x.2
        pure (x.1, analyze_file tree config))
      = (Except.error () : Except Unit (List (String × FileData))) := by
  induction files with
  | nil => simp at h
  | cons x rest ih =>
    rw [List.mapM_cons]
    rcases hsrc : x.2 with _ | tree
    · rfl
    · obtain ⟨y, hy, he⟩ := h
      rcases List.mem_cons.mp hy with rfl | hy2
      · rw [hsrc] at he
        cases he
      · rw [ih ⟨y, hy2, he⟩]
        rfl

theorem funcFilter_some_name (config : Config) (name : String) (line : Nat)
    (body : List PyNode) (d : Declaration)
    (h : funcFilter config name line body = some d) : d.name = name := by
  unfold funcFilter at h
  split_ifs at h
  injection h with h
  rw [← h]

theorem funcFilter_init_magic (config : Config)
    (h : config.skip_magic_funcs = true) (line : Nat) (body : List PyNode) :
    funcFilter config "__init__" line body = none := by
  have h1 : (pyStartswith "__init__" "__" && pyEndswith "__init__" "__") = true := by
    decide
  unfold funcFilter
  rw [h, h1]
  simp

theorem funcFilter_congr (c₁ c₂ : Config)
    (hm : c₁.skip_magic_funcs = c₂.skip_magic_funcs)
    (hp : c₁.skip_private_funcs = c₂.skip_private_funcs) :
    funcFilter c₁ = funcFilter c₂ := by
  funext name line body
  unfold funcFilter
  rw [hm, hp]

theorem funcEntry_congr (c₁ c₂ : Config)
    (hm : c₁.skip_magic_funcs = c₂.skip_magic_funcs)
    (hp : c₁.skip_private_funcs = c₂.skip_private_funcs) :
    funcEntry c₁ = funcEntry c₂ := by
  funext n
  cases n <;> simp [funcEntry, funcFilter_congr c₁ c₂ hm hp]

theorem analyze_file_classes (tree : PyNode) (config : Config) :
    (analyze_file tree config).classes = (walk tree).filterMap classEntry := rfl

theorem analyze_file_functions (tree : PyNode) (config : Config) :
    (analyze_file tree config).functions = (walk tree).filterMap (funcEntry config) := rfl

theorem total_lines_error_of_classes_zero (t : Totals) (h : t.classes_total = 0) :
    total_lines t = .error () := by
  unfold total_lines pyDiv
  rw [h]
  rfl

theorem violation_shape (config : Config) (fd : FileData) (v : Violation)
    (hv : v ∈ file_violations config fd) :
    v = .missingModule
    ∨ (∃ l n, v = .missingClass l n ∧ config.skip_classes = false)
    ∨ (∃ l n, v = .missingFunction l n ∧ config.skip_functions = false) := by
  unfold file_violations at hv
  rcases List.mem_append.mp hv with h | h
  · rcases List.mem_append.mp h with h1 | h2
    · left
      rcases hm : (config.skip_modules = false && fd.module_docstring.isNone) with _ | _ <;>
        rw [hm] at h1 <;> simp at h1
      exact h1
    · right; left
      rcases hc : config.skip_classes with _ | _ <;> rw [hc] at h2 <;> simp at h2
      obtain ⟨c, _, _, hcv⟩ := h2
      exact ⟨c.line, c.name, hcv.symm, rfl⟩
  · right; right
    rcases hf : config.skip_functions with _ | _ <;> rw [hf] at h <;> simp at h
    obtain ⟨f, _, _, hfv⟩ := h
    exact ⟨f.line, f.name, hfv.symm, rfl⟩

/-! ## Claim theorems -/

/-- C10: for every finite iterable and every sequence of predicates,
`count_matching` returns a tuple whose length equals the number of
predicates and whose i-th component is the number of elements of the
iterable satisfying the i-th predicate, hence at most the iterable's
length. -/
theorem count_matching_spec {α : Type} (l : List α) (ps : List (α → Bool)) :
    count_matching l ps = (ps.map fun p => l.countP p)
    ∧ (count_matching l ps).length = ps.length
    ∧ ∀ i, i < ps.length →
        (count_matching l ps).getD i 0 = l.countP (ps.getD i fun _ => false)
        ∧ (count_matching l ps).getD i 0 ≤ l.length := by
  refine ⟨count_matching_eq_map l ps, ?_, ?_⟩
  · rw [count_matching_eq_map]
    simp
  · intro i hi
    rw [count_matching_eq_map]
    rw [List.getD_eq_getElem _ _ (by simpa using hi), List.getD_eq_getElem _ _ hi]
    rw [List.getElem_map]
    exact ⟨rfl, List.countP_le_length _⟩

def c10_preds : List (ℕ → Bool) := [fun n => n % 2 == 0, fun n => decide (2 ≤ n)]

/-- Witness for C10 at a concrete list and predicate vector. -/
theorem count_matching_spec_witness :
    (0 : ℕ) < c10_preds.length
    ∧ (count_matching [0, 1, 2, 3] c10_preds).getD 0 0
        = List.countP (c10_preds.getD 0 fun _ => false) [0, 1, 2, 3]
    ∧ (count_matching [0, 1, 2, 3] c10_preds).getD 0 0 ≤ [0, 1, 2, 3].length := by
  have h := (count_matching_spec [0, 1, 2, 3] c10_preds).2.2 0 (by decide)
  exact ⟨by decide, h.1, h.2⟩

/-- C9: each of the eight recognized config fields takes the override's
value when the key is present and the base value otherwise; a key outside
the eight recognized fields never changes the merge result and is itself
left untouched in the result (and the merge is a total function, so no
error is possible). -/
theorem overwrite_config_fields_spec (base new : ConfigDict) (k : String) :
    (k ∈ CONFIG_FIELDS →
      overwrite_config base new k =
        match new k with
        | some v => some v
        | none => base k)
    ∧ (k ∉ CONFIG_FIELDS →
        (∀ v, overwrite_config base (dictInsert new k v) = overwrite_config base new)
        ∧ overwrite_config base new k = base k) := by
  constructor
  · intro hk
    exact foldl_applyField_mem CONFIG_FIELDS new base k (by decide) hk
  · intro hk
    constructor
    · intro v
      unfold overwrite_config
      apply foldl_applyField_congr
      intro f hf
      unfold dictInsert
      have hne : f ≠ k := fun he => hk (he ▸ hf)
      simp [hne]
    · exact foldl_applyField_not_mem CONFIG_FIELDS new base k hk

def c9_override : ConfigDict :=
  fun k => if k = CONFIG_SKIP_PRIVATE then some (.bool false) else none

/-- Witness for C9: a present recognized key is taken from the override,
and inserting an unrecognized key leaves the merge result unchanged. -/
theorem overwrite_config_fields_spec_witness :
    CONFIG_SKIP_PRIVATE ∈ CONFIG_FIELDS
    ∧ overwrite_config CONFIG_DEFAULT c9_override CONFIG_SKIP_PRIVATE = some (.bool false)
    ∧ "color" ∉ CONFIG_FIELDS
    ∧ overwrite_config CONFIG_DEFAULT (dictInsert c9_override "color" (.bool true))
        = overwrite_config CONFIG_DEFAULT c9_override := by
  have h1 := (overwrite_config_fields_spec CONFIG_DEFAULT c9_override
    CONFIG_SKIP_PRIVATE).1 (by decide)
  have h2 := ((overwrite_config_fields_spec CONFIG_DEFAULT c9_override
    "color").2 (by decide)).1 (.bool true)
  refine ⟨by decide, ?_, by decide, h2⟩
  rw [h1]
  simp [c9_override]

def ov_skip_magic_false : ConfigDict :=
  fun k => if k = CONFIG_SKIP_MAGIC then some (.bool false) else none

/-- C3 (code bug): merging an override onto the defaults mutates the shared
`CONFIG_DEFAULT` object.  `_overwrite_config` assigns into `base` in place,
and `run` passes the module-level `CONFIG_DEFAULT` itself (no copy), so
after merging `{"skip_magic_funcs": false}` the default object's content
differs from its original value. -/
theorem overwrite_config_mutates_default :
    default_cell_after_run ov_skip_magic_false CONFIG_SKIP_MAGIC = some (.bool false)
    ∧ CONFIG_DEFAULT CONFIG_SKIP_MAGIC = some (.bool true)
    ∧ default_cell_after_run ov_skip_magic_false ≠ CONFIG_DEFAULT := by
  have h1 : default_cell_after_run ov_skip_magic_false CONFIG_SKIP_MAGIC
      = some (.bool false) := by
    have h := foldl_applyField_mem CONFIG_FIELDS ov_skip_magic_false CONFIG_DEFAULT
      CONFIG_SKIP_MAGIC (by decide) (by decide)
    unfold default_cell_after_run overwrite_config
    rw [h]
    simp [ov_skip_magic_false]
  have h2 : CONFIG_DEFAULT CONFIG_SKIP_MAGIC = some (.bool true) := by decide
  refine ⟨h1, h2, ?_⟩
  intro h
  have hc := congrFun h CONFIG_SKIP_MAGIC
  rw [h1, h2] at hc
  simp at hc

/-- C5: a parse failure on any discovered file propagates out of the
analysis loop before `_report_data` is ever reached, so the whole run
aborts with no report output of any kind. -/
theorem run_aborts_on_parse_error (files : List (String × Except Unit PyNode))
    (config : Config) (h : ∃ x ∈ files, x.2 = Except.error ()) :
    run files config = .error () := by
  unfold run
  rw [mapM_analyze_error config files h]
  rfl

def c5_files : List (String × Except Unit PyNode) :=
  [("good.py", Except.ok (.module [])), ("bad.py", Except.error ())]

/-- Witness for C5: one good file followed by one unparsable file produces
no output. -/
theorem run_aborts_on_parse_error_witness :
    (∃ x ∈ c5_files, x.2 = Except.error ())
    ∧ run c5_files default_config = Except.error () := by
  have hmem : ("bad.py", (Except.error () : Except Unit PyNode)) ∈ c5_files :=
    List.Mem.tail _ (List.Mem.head _)
  have hex : ∃ x ∈ c5_files, x.2 = Except.error () := ⟨_, hmem, rfl⟩
  exact ⟨hex, run_aborts_on_parse_error c5_files default_config hex⟩

/-- C1 counterexample: the claim asserts `percentage = 1.0` when
`total = 0`, but a file with no classes gets `class_coverage` with
`total = 0` and `percentage = 0 / max(0, 1) = 0.0`, not `1.0`. -/
theorem c1_counterexample :
    (analyze_file (PyNode.module []) default_config).class_coverage.total = 0
    ∧ (analyze_file (PyNode.module []) default_config).class_coverage.percentage ≠ 1 := by
  rw [analyze_file_eq]
  simp [walk, walkAux_cons, walkAux_nil, PyNode.childNodes, classEntry, mkStat]

/-- C1 (amended): every `CoverageStat` produced by the per-file analysis,
for both categories and under every config, satisfies `documented ≤ total`,
`percentage ∈ [0, 1]`, and `percentage = documented / total` when
`total > 0`; when `total = 0` the percentage is `0.0` (the code computes
`documented / max(total, 1) = 0 / 1`), not the claimed `1.0`. -/
theorem analyze_file_coverage_invariant (tree : PyNode) (config : Config) :
    statInv (analyze_file tree config).class_coverage
    ∧ statInv (analyze_file tree config).function_coverage := by
  rw [analyze_file_eq]
  exact ⟨mkStat_inv _, mkStat_inv _⟩

/-- Witness for C1 (amended): a file with no classes hits the `total = 0`
branch and gets percentage `0`. -/
theorem analyze_file_coverage_invariant_witness :
    (analyze_file (PyNode.module []) default_config).class_coverage.total = 0
    ∧ (analyze_file (PyNode.module []) default_config).class_coverage.percentage = 0 := by
  have ht : (analyze_file (PyNode.module []) default_config).class_coverage.total = 0 := by
    rw [analyze_file_eq]
    simp [walk, walkAux_cons, walkAux_nil, PyNode.childNodes, classEntry, mkStat]
  have hs := (analyze_file_coverage_invariant (PyNode.module []) default_config).1
  unfold statInv at hs
  exact ⟨ht, hs.2.2.2.2 ht⟩

def c2_data : List (String × FileData) :=
  [("empty.py", analyze_file (.module []) default_config)]

/-- C2 (code bug): with one discovered file containing no classes and the
default config, the grand class total is zero and the final running-total
computation `(classes_doc_total / classes_total) * 100` divides by zero:
rendering the total line raises instead of reporting 0% or suppressing the
line. -/
theorem report_all_total_line_zero_division :
    (totals_of default_config c2_data).classes_total = 0
    ∧ (report_all c2_data default_config).2 = .error () := by
  have h0 : (totals_of default_config c2_data).classes_total = 0 := by
    simp [c2_data, analyze_file_eq, totals_of, walk, walkAux_cons, walkAux_nil,
      PyNode.childNodes, classEntry, default_config]
  exact ⟨h0, total_lines_error_of_classes_zero _ h0⟩

def c4_tree : PyNode := .module [.funcDef "__init__" 1 []]

def c4_config : Config := { default_config with skip_magic_funcs := false }

/-- C4 counterexample: with `skip_magic_funcs = false` but
`skip_private_funcs` still true (its default), a file whose only function
is `__init__` yields an empty extracted function list and a zero function
total — the claim's second half ("with it false, the same function is
included and counted") fails because the private-name filter catches the
leading underscore of `__init__`. -/
theorem c4_counterexample :
    c4_config.skip_magic_funcs = false
    ∧ (analyze_file c4_tree c4_config).functions = []
    ∧ (analyze_file c4_tree c4_config).function_coverage.total = 0 := by
  refine ⟨rfl, ?_⟩
  rw [analyze_file_eq]
  simp [c4_tree, walk, walkAux_cons, walkAux_nil, PyNode.childNodes, funcEntry,
    funcFilter, mkStat, c4_config, default_config]
  decide

/-- C4 (amended): when `skip_magic_funcs` is true, no extracted function is
named `__init__`; when both `skip_magic_funcs` and `skip_private_funcs` are
false, every `__init__` function declaration in the tree is extracted; and
the `function_coverage` counts are exactly the counts over the extracted
list, so exclusion from the list is exclusion from both counts. -/
theorem init_function_filtering (tree : PyNode) (config : Config) :
    (config.skip_magic_funcs = true →
      ∀ d ∈ (analyze_file tree config).functions, d.name ≠ "__init__")
    ∧ (config.skip_magic_funcs = false → config.skip_private_funcs = false →
        ∀ line body, Descendant tree (.funcDef "__init__" line body) →
          (⟨"__init__", line, firstStmtString body⟩ : Declaration)
            ∈ (analyze_file tree config).functions)
    ∧ (analyze_file tree config).function_coverage.total
        = (analyze_file tree config).functions.length
    ∧ (analyze_file tree config).function_coverage.documented
        = (analyze_file tree config).functions.countP fun d => d.docstring.isSome := by
  refine ⟨?_, ?_, ?_, ?_⟩
  · intro hm d hd hname
    rw [analyze_file_functions] at hd
    obtain ⟨node, hmem, hfe⟩ := List.mem_filterMap.mp hd
    cases node with
    | funcDef name line body =>
      simp only [funcEntry] at hfe
      have hn := funcFilter_some_name config name line body d hfe
      rw [hname] at hn
      rw [← hn, funcFilter_init_magic config hm] at hfe
      cases hfe
    | asyncFuncDef name line body =>
      simp only [funcEntry] at hfe
      have hn := funcFilter_some_name config name line body d hfe
      rw [hname] at hn
      rw [← hn, funcFilter_init_magic config hm] at hfe
      cases hfe
    | module body => cases hfe
    | classDef name line body => cases hfe
    | exprStr s line => cases hfe
    | stmt children => cases hfe
  · intro hm hp line body hdesc
    rw [analyze_file_functions]
    refine List.mem_filterMap.mpr
      ⟨.funcDef "__init__" line body, (mem_walk_iff tree _).mpr hdesc, ?_⟩
    simp [funcEntry, funcFilter, hm, hp]
  · rw [analyze_file_eq]
    rfl
  · rw [analyze_file_eq]
    rfl

def c4w_tree : PyNode := .module [.funcDef "__init__" 3 [.exprStr "ctor doc" 3]]

def c4w_config : Config :=
  { default_config with skip_magic_funcs := false, skip_private_funcs := false }

/-- Witness for C4 (amended): with both function filters off, a documented
`__init__` is extracted. -/
theorem init_function_filtering_witness :
    c4w_config.skip_magic_funcs = false ∧ c4w_config.skip_private_funcs = false
    ∧ (⟨"__init__", 3, some "ctor doc"⟩ : Declaration)
        ∈ (analyze_file c4w_tree c4w_config).functions := by
  refine ⟨rfl, rfl, ?_⟩
  have hdesc : Descendant c4w_tree (.funcDef "__init__" 3 [.exprStr "ctor doc" 3]) :=
    Descendant.child (List.Mem.head _) (Descendant.refl _)
  exact (init_function_filtering c4w_tree c4w_config).2.1 rfl rfl 3
    [.exprStr "ctor doc" 3] hdesc

/-- C6: the per-file analysis (and hence the per-file coverage stats) is
independent of the `skip_modules`/`skip_classes`/`skip_functions` toggles —
it reads only the two function-name filters — while the detailed-mode
running totals and violation lines do respect the toggles: a disabled
category contributes nothing to the aggregate counters and emits no
violation line of that kind, yet every printed section still carries the
file's own toggle-free coverage stats. -/
theorem toggles_affect_totals_not_file_stats :
    (∀ (tree : PyNode) (c₁ c₂ : Config),
        c₁.skip_magic_funcs = c₂.skip_magic_funcs →
        c₁.skip_private_funcs = c₂.skip_private_funcs →
        analyze_file tree c₁ = analyze_file tree c₂)
    ∧ (∀ (config : Config) (data : List (String × FileData)),
        config.skip_classes = true →
        (totals_of config data).classes_total = 0
        ∧ (totals_of config data).classes_doc_total = 0
        ∧ ∀ s ∈ (report_all data config).1, ∀ v ∈ s.reports,
            ∀ l n, v ≠ Violation.missingClass l n)
    ∧ (∀ (config : Config) (data : List (String × FileData)),
        config.skip_functions = true →
        (totals_of config data).functions_total = 0
        ∧ (totals_of config data).functions_doc_total = 0
        ∧ ∀ s ∈ (report_all data config).1, ∀ v ∈ s.reports,
            ∀ l n, v ≠ Violation.missingFunction l n)
    ∧ ∀ (config : Config) (data : List (String × FileData)),
        ∀ s ∈ (report_all data config).1,
          ∃ x ∈ data, s.class_cov = x.2.class_coverage
            ∧ s.function_cov = x.2.function_coverage := by
  refine ⟨?_, ?_, ?_, ?_⟩
  · intro tree c₁ c₂ hm hp
    rw [analyze_file_eq tree c₁, analyze_file_eq tree c₂,
      funcEntry_congr c₁ c₂ hm hp]
  · intro config data h
    refine ⟨?_, ?_, ?_⟩
    · unfold totals_of
      exact (totals_foldl_skip_classes config h data _).1
    · unfold totals_of
      exact (totals_foldl_skip_classes config h data _).2
    · intro s hs v hv l n heq
      simp only [report_all] at hs
      obtain ⟨x, hx, hsec⟩ := List.mem_filterMap.mp hs
      obtain ⟨hsEq, _⟩ := file_section_eq_some config x.1 x.2 s hsec
      have hv2 : v ∈ file_violations config x.2 := by
        rw [hsEq] at hv
        exact hv
      rcases violation_shape config x.2 v hv2 with h1 | ⟨l2, n2, h2, hc⟩ | ⟨l2, n2, h2, hf⟩
      · rw [heq] at h1
        cases h1
      · rw [h] at hc
        cases hc
      · rw [heq] at h2
        cases h2
  · intro config data h
    refine ⟨?_, ?_, ?_⟩
    · unfold totals_of
      exact (totals_foldl_skip_functions config h data _).1
    · unfold totals_of
      exact (totals_foldl_skip_functions config h data _).2
    · intro s hs v hv l n heq
      simp only [report_all] at hs
      obtain ⟨x, hx, hsec⟩ := List.mem_filterMap.mp hs
      obtain ⟨hsEq, _⟩ := file_section_eq_some config x.1 x.2 s hsec
      have hv2 : v ∈ file_violations config x.2 := by
        rw [hsEq] at hv
        exact hv
      rcases violation_shape config x.2 v hv2 with h1 | ⟨l2, n2, h2, hc⟩ | ⟨l2, n2, h2, hf⟩
      · rw [heq] at h1
        cases h1
      · rw [heq] at h2
        cases h2
      · rw [h] at hf
        cases hf
  · intro config data s hs
    simp only [report_all] at hs
    obtain ⟨x, hx, hsec⟩ := List.mem_filterMap.mp hs
    obtain ⟨hsEq, _⟩ := file_section_eq_some config x.1 x.2 s hsec
    exact ⟨x, hx, by rw [hsEq], by rw [hsEq]⟩

def c6_tree : PyNode := .module [.classDef "A" 1 []]

def c6_config : Config :=
  { default_config with
    skip_classes := true
    skip_modules := true
    skip_functions := true }

/-- Witness for C6: the category toggles do not change the per-file
analysis, and with `skip_classes` on, a file with a class contributes
nothing to the class totals. -/
theorem toggles_affect_totals_not_file_stats_witness :
    analyze_file c6_tree default_config = analyze_file c6_tree c6_config
    ∧ (totals_of c6_config
        [("a.py", analyze_file c6_tree default_config)]).classes_total = 0 :=
  ⟨toggles_affect_totals_not_file_stats.1 c6_tree default_config c6_config rfl rfl,
    (toggles_affect_totals_not_file_stats.2.1 c6_config
      [("a.py", analyze_file c6_tree default_config)] rfl).1⟩

/-- C7: in percent-only mode the renderer emits exactly one line per
discovered file, unconditionally, built from that file's own
`class_coverage`/`function_coverage` values; the output carries no
violation detail and no running total, and the lines do not depend on the
configuration at all (in particular not on the category toggles). -/
theorem percent_only_mode_lines (data : List (String × FileData)) (config : Config)
    (h : config.report_percent_only = true) :
    report_data data config = .percentOnly (report_percent_only data config)
    ∧ (report_percent_only data config).length = data.length
    ∧ (∀ c₂ : Config, report_percent_only data config = report_percent_only data c₂)
    ∧ ∀ i, i < data.length →
        (report_percent_only data config).getD i default =
          { file_name := (data.getD i default).1
            class_doc := (data.getD i default).2.class_coverage.documented
            class_total := (data.getD i default).2.class_coverage.total
            class_perc := (data.getD i default).2.class_coverage.percentage * 100
            func_doc := (data.getD i default).2.function_coverage.documented
            func_total := (data.getD i default).2.function_coverage.total
            func_perc := (data.getD i default).2.function_coverage.percentage * 100 } := by
  refine ⟨by simp [report_data, h], by simp [report_percent_only], fun c₂ => rfl, ?_⟩
  intro i hi
  have hlen : i < (report_percent_only data config).length := by
    simpa [report_percent_only] using hi
  rw [List.getD_eq_getElem _ _ hlen, List.getD_eq_getElem _ _ hi]
  simp [report_percent_only]

def c7_data : List (String × FileData) :=
  [("a.py", analyze_file (.module []) default_config)]

def c7_config : Config := { default_config with report_percent_only := true }

/-- Witness for C7 at a one-file input in percent-only mode. -/
theorem percent_only_mode_lines_witness :
    c7_config.report_percent_only = true
    ∧ report_data c7_data c7_config = .percentOnly (report_percent_only c7_data c7_config)
    ∧ (report_percent_only c7_data c7_config).length = c7_data.length :=
  ⟨rfl, (percent_only_mode_lines c7_data c7_config rfl).1,
    (percent_only_mode_lines c7_data c7_config rfl).2.1⟩

/-- C8: extraction collects every class declaration anywhere in the tree
into `classes`, unconditionally: any class node reachable at any nesting
depth appears in the list, the list is identical under every configuration
(the `skip_magic_funcs`/`skip_private_funcs` filters never exclude a
class), and every list entry comes from a class node of the tree. -/
theorem classes_collected_unconditionally (tree : PyNode) :
    (∀ (config : Config) (name : String) (line : Nat) (body : List PyNode),
        Descendant tree (.classDef name line body) →
        (⟨name, line, firstStmtString body⟩ : Declaration)
          ∈ (analyze_file tree config).classes)
    ∧ (∀ c₁ c₂ : Config, (analyze_file tree c₁).classes = (analyze_file tree c₂).classes)
    ∧ ∀ (config : Config) (d : Declaration), d ∈ (analyze_file tree config).classes →
        ∃ body, Descendant tree (.classDef d.name d.line body)
          ∧ d.docstring = firstStmtString body := by
  refine ⟨?_, fun c₁ c₂ => rfl, ?_⟩
  · intro config name line body hdesc
    rw [analyze_file_classes]
    exact List.mem_filterMap.mpr
      ⟨.classDef name line body, (mem_walk_iff tree _).mpr hdesc, rfl⟩
  · intro config d hd
    rw [analyze_file_classes] at hd
    obtain ⟨node, hmem, hce⟩ := List.mem_filterMap.mp hd
    cases node with
    | classDef name line body =>
      simp only [classEntry] at hce
      injection hce with hce
      refine ⟨body, ?_, ?_⟩
      · rw [← hce]
        exact (mem_walk_iff tree _).mp hmem
      · rw [← hce]
    | module body => cases hce
    | funcDef name line body => cases hce
    | asyncFuncDef name line body => cases hce
    | exprStr s line => cases hce
    | stmt children => cases hce

def c8_tree : PyNode := .module [.funcDef "outer" 1 [.classDef "__Inner" 2 []]]

/-- Witness for C8: a dunder-named class nested inside a function body is
still extracted under the default (all-filters-on) configuration. -/
theorem classes_collected_unconditionally_witness :
    (⟨"__Inner", 2, none⟩ : Declaration) ∈ (analyze_file c8_tree default_config).classes := by
  have hdesc : Descendant c8_tree (.classDef "__Inner" 2 []) :=
    Descendant.child (List.Mem.head _)
      (Descendant.child (List.Mem.head _) (Descendant.refl _))
  exact (classes_collected_unconditionally c8_tree).1 default_config "__Inner" 2 [] hdesc

end PyDocCoverage
